import Mathlib

/-!
Verification development for the k-MST integer-programming driver
(`src_kmst/kmst.py`).  The Python class `KMST` is embedded shallowly:
the OR-Tools solver is a record of accumulated variables, constraints
and objective; Python dictionaries are association lists; Python
exceptions are the `Except` monad; the external MILP engine's terminal
status is an oracle parameter.
-/

namespace KMST

/-- Exceptions raised by the Python code: `ValueError` (with its message),
`KeyError` (dict lookup of a missing key), `IndexError` (list index out of
range), and `FileNotFoundError` from `open` (the path that was missing). -/
inductive PyError where
  | valueError (msg : String)
  | keyError
  | indexError
  | fileNotFoundError (path : String)
deriving DecidableEq, Repr

/-- A graph instance.  The class `src_kmst/utils.py : Instance` is not under
`src/`; its fields are modelled from the spec (section 3): `name`, `n` (vertex
count minus one), `m` (edge count, informational), `V` (vertex ids), `E`
(edges as ordered pairs collected in a Python set), `weights` (a dict from
arc to integer cost, modelled as an association list), and the mutable target
size `k`.  The constructor call in `load_instance` passes no `k`; the field
is modelled as 0 until `load_instances` assigns it. -/
structure Instance where
  name : String
  n : Int
  m : Int
  V : List Int
  E : List (Int × Int)
  weights : List ((Int × Int) × Int)
  k : Int
deriving DecidableEq, Repr

/-- Modelled from the spec: `Instance.A` is defined in `src_kmst/utils.py`,
which is not under `src/`.  Section 3 of the spec: "`A`: set of directed
arcs ... derived as the two orientations of every edge in `E`"; set
semantics, hence `dedup`. -/
def Instance.A (inst : Instance) : List (Int × Int) :=
  (inst.E.bind fun e => [e, (e.2, e.1)]).dedup

/-- Linear expressions as the Python code builds them over `ortools` variable
handles: integer constants, a variable (identified by the name string passed
to `IntVar`), sums, differences, and scalar multiples. -/
inductive Expr where
  | const (c : Int)
  | var (nm : String)
  | add (a b : Expr)
  | sub (a b : Expr)
  | mul (c : Int) (e : Expr)
deriving DecidableEq, Repr

/-- Relation of a linear constraint handed to `solver.Add`. -/
inductive Rel where
  | le
  | eq
deriving DecidableEq, Repr

/-- A linear constraint `lhs rel rhs` registered on the solver. -/
structure Constraint where
  lhs : Expr
  rel : Rel
  rhs : Expr
deriving DecidableEq, Repr

/-- The solver objective as set by `solver.Minimize`. -/
structure Objective where
  expr : Expr
  minimize : Bool
deriving DecidableEq, Repr

/-- A solver variable created by `solver.IntVar(lb, ub, name)`. -/
structure Var where
  lb : Int
  ub : Int
  nm : String
deriving DecidableEq, Repr

/-- The state of the single `pywraplp` solver object: variables and
constraints accumulate in creation order; `Minimize` overwrites the
objective. -/
structure Solver where
  vars : List Var
  constraints : List Constraint
  objective : Option Objective
deriving DecidableEq, Repr

/-- Terminal status reported by `solver.Solve()`. -/
inductive Status where
  | optimal
  | feasible
  | infeasible
  | unbounded
  | abnormal
  | notSolvedStatus
deriving DecidableEq, Repr

/-- Console reports of the pipeline that the claims talk about: the
"solved" line printed by `KMST.solve` on OPTIMAL, the "not solved" line it
prints otherwise, and the validation report printed by `KMST.validate`. -/
inductive Event where
  | solved_report (nm : String)
  | not_solved_report (nm : String)
  | validation_report (nm : String)
deriving DecidableEq, Repr

/-- The mutable state of the Python `KMST` object (`__init__`): the
configured instance names, formulation tag and data path, the `instances`
dict, the single solver, and the variable mappings `x`, `u`, `f`
(dict key to solver-variable name; `None` at construction, modelled
empty). -/
structure KMSTState where
  instance_names : List String
  formulation : String
  data_path : String
  instances : List (String × Instance)
  solver : Solver
  x : List ((Int × Int) × String)
  u : List (Int × String)
  f : List ((Int × Int) × String)
deriving DecidableEq, Repr

/-- `KMST.__init__` for a given configuration: empty instance table, fresh
solver, unset variable mappings.  The solver-name lookup and engine
construction are external to the modelled core. -/
def init (instance_names : List String) (formulation : String) (data_path : String) : KMSTState :=
  ⟨instance_names, formulation, data_path, [], ⟨[], [], none⟩, [], [], []⟩

instance except_dec_eq {ε α : Type} [DecidableEq ε] [DecidableEq α] :
    DecidableEq (Except ε α) := fun a b =>
  match a, b with
  | .error e, .error f =>
    if h : e = f then .isTrue (congrArg Except.error h)
    else .isFalse (fun hc => h (Except.error.inj hc))
  | .ok x, .ok y =>
    if h : x = y then .isTrue (congrArg Except.ok h)
    else .isFalse (fun hc => h (Except.ok.inj hc))
  | .error _, .ok _ => .isFalse (fun hc => Except.noConfusion hc)
  | .ok _, .error _ => .isFalse (fun hc => Except.noConfusion hc)

/-- Python list indexing `l[i]` (raises `IndexError` past the end). -/
def py_index {α : Type} (l : List α) (i : Nat) : Except PyError α :=
  match l.get? i with
  | some a => .ok a
  | none => .error .indexError

/-- `int(line)` on a tokenized line: succeeds exactly when the line is a
single integer token. -/
def py_int (line : List Int) : Except PyError Int :=
  match line with
  | [t] => .ok t
  | _ => .error (.valueError "invalid literal for int")

/-- Python `set.add` on a set modelled as an ordered duplicate-free list. -/
def set_insert {α : Type} [DecidableEq α] (l : List α) (a : α) : List α :=
  if a ∈ l then l else l ++ [a]

/-- Python dict assignment `d[key] = v`: overwrite in place, or append. -/
def dict_set {α β : Type} [DecidableEq α] (d : List (α × β)) (key : α) (v : β) : List (α × β) :=
  if d.any (fun p => decide (p.1 = key)) then
    d.map (fun p => if p.1 = key then (key, v) else p)
  else d ++ [(key, v)]

/-- Python dict lookup `d[key]`: the stored value, or `KeyError`. -/
def dict_get {α β : Type} [DecidableEq α] (d : List (α × β)) (key : α) : Except PyError β :=
  match d with
  | [] => .error .keyError
  | p :: rest => if p.1 = key then .ok p.2 else dict_get rest key

/-- Evaluate a fallible body over a list in order, stopping at the first
raised exception: the effect of a Python loop or comprehension whose body
performs dict lookups. -/
def mapE {α β : Type} (g : α → Except PyError β) : List α → Except PyError (List β)
  | [] => .ok []
  | a :: l =>
    match g a with
    | .error e => .error e
    | .ok b =>
      match mapE g l with
      | .error e => .error e
      | .ok bs => .ok (b :: bs)

/-- Python `sum(...)` over expression objects: starts from the integer 0 and
folds addition from the left. -/
def py_sum (l : List Expr) : Expr := l.foldl Expr.add (Expr.const 0)

/-- `math.ceil(a / b)` for integers with a positive divisor, as computed at
kmst.py lines 29 and 32 (`ceil(instance.n / 5)`, `ceil(instance.n / 2)`). -/
def ceil_div (a b : Int) : Int := -((-a) / b)

/-- The name string `f-string x_u_v` passed to `IntVar` for arc variables. -/
def x_name (a b : Int) : String := "x_" ++ toString a ++ "_" ++ toString b

/-- The name string `f-string u_v` passed to `IntVar` for sequence variables. -/
def u_name (v : Int) : String := "u_" ++ toString v

/-- The two-character padding of an instance name used in `load_instance`:
`str(name)` if it has two characters, else a leading `0` is prepended. -/
def instance_string (nm : String) : String :=
  if nm.length = 2 then nm else "0" ++ nm

/-- The data-file path `f-string data_path/g NN .dat` opened by
`load_instance`. -/
def file_path (data_path nm : String) : String :=
  data_path ++ "/g" ++ instance_string nm ++ ".dat"

/-- The edge-reading loop of `load_instance` over `lines[2:]`: blank lines
(no tokens) are skipped; a line must unpack as `_, a, b, w` (four tokens,
else the tuple unpacking raises `ValueError`); `(a, b)` is added to the edge
set and `weights[(a, b)] = w` recorded. -/
def parse_edges : List (List Int) → List (Int × Int) → List ((Int × Int) × Int) →
    Except PyError (List (Int × Int) × List ((Int × Int) × Int))
  | [], es, ws => .ok (es, ws)
  | line :: rest, es, ws =>
    if line.isEmpty then parse_edges rest es ws
    else
      match line with
      | [_t, a, b, w] => parse_edges rest (set_insert es (a, b)) (dict_set ws (a, b) w)
      | _ => .error (.valueError "not enough values to unpack")

/-- The body of `KMST.load_instance` after the file is read, on the file's
lines (each modelled as its list of integer tokens): `n = int(lines[0]) - 1`,
`m = int(lines[1]) - 1`, `V = range(0, n + 1)` as a set, then the edge loop.
The returned `Instance` carries no `k` yet (modelled 0). -/
def parse_instance (nm : String) (lines : List (List Int)) : Except PyError Instance :=
  match py_index lines 0 with
  | .error e => .error e
  | .ok l0 =>
  match py_int l0 with
  | .error e => .error e
  | .ok n1 =>
  match py_index lines 1 with
  | .error e => .error e
  | .ok l1 =>
  match py_int l1 with
  | .error e => .error e
  | .ok m1 =>
  match parse_edges (lines.drop 2) [] [] with
  | .error e => .error e
  | .ok ew =>
    .ok ⟨"instance_" ++ instance_string nm, n1 - 1, m1 - 1,
         (List.range (n1 - 1 + 1).toNat).map (fun i => Int.ofNat i), ew.1, ew.2, 0⟩

/-- `KMST.load_instance`: open the data file (the filesystem is the oracle
`files`, `none` meaning the file is absent so `open` raises
`FileNotFoundError`) and parse it. -/
def load_instance (files : String → Option (List (List Int))) (data_path nm : String) :
    Except PyError Instance :=
  match files (file_path data_path nm) with
  | none => .error (.fileNotFoundError (file_path data_path nm))
  | some lines => parse_instance nm lines

/-- The loop body of `KMST.load_instances` over the configured names: load
the base instance, set `k = ceil(n / 5)` on it and store it under the
`_0` key, shallow-copy it, set `k = ceil(n / 2)` on the copy and store that
under the `_1` key.  Any loader exception propagates (there is no
try/except). -/
def load_instances_list (files : String → Option (List (List Int))) (data_path : String) :
    List String → Except PyError (List (String × Instance))
  | [] => .ok []
  | nm :: rest =>
    match load_instance files data_path nm with
    | .error e => .error e
    | .ok inst =>
      let instance_0 := { inst with k := ceil_div inst.n 5 }
      let instance_1 := { instance_0 with k := ceil_div instance_0.n 2 }
      match load_instances_list files data_path rest with
      | .error e => .error e
      | .ok tail => .ok ((nm ++ "_0", instance_0) :: (nm ++ "_1", instance_1) :: tail)

/-- `KMST.load_instances`: fill `self.instances` from the configured names. -/
def load_instances (s : KMSTState) (files : String → Option (List (List Int))) :
    Except PyError KMSTState :=
  match load_instances_list files s.data_path s.instance_names with
  | .error e => .error e
  | .ok l => .ok { s with instances := l }

/-- `KMST.define_variables_mtz`: one `IntVar(0, 1, x_name)` per arc of `A`
(recorded in the `x` mapping), then one `IntVar(1, k, u_name)` per vertex of
`V` (recorded in the `u` mapping). -/
def define_variables_mtz (s : KMSTState) (inst : Instance) : KMSTState :=
  let x_vars : List Var := inst.A.map (fun a => ⟨0, 1, x_name a.1 a.2⟩)
  let u_vars : List Var := inst.V.map (fun v => ⟨1, inst.k, u_name v⟩)
  { s with
    solver := { s.solver with vars := s.solver.vars ++ x_vars ++ u_vars },
    x := s.x ++ inst.A.map (fun a => (a, x_name a.1 a.2)),
    u := s.u ++ inst.V.map (fun v => (v, u_name v)) }

/-- `KMST.define_variables_scf`: `pass`. -/
def define_variables_scf (s : KMSTState) (_inst : Instance) : KMSTState := s

/-- `KMST.define_variables_mcf`: `pass`. -/
def define_variables_mcf (s : KMSTState) (_inst : Instance) : KMSTState := s

/-- `KMST.define_constraints_scf`: `pass`. -/
def define_constraints_scf (s : KMSTState) (_inst : Instance) : KMSTState := s

/-- `KMST.define_constraints_mcf`: `pass`. -/
def define_constraints_mcf (s : KMSTState) (_inst : Instance) : KMSTState := s

/-- `KMST.define_variables`: reset the mappings `x`, `u`, `f` to fresh empty
dicts, then dispatch on the formulation tag; an unrecognized tag raises
`ValueError('Formulation not recognized')` (the spec's
`UnknownFormulationError`). -/
def define_variables (s : KMSTState) (inst : Instance) : Except PyError KMSTState :=
  let s1 := { s with x := [], u := [], f := [] }
  if s1.formulation = "MTZ" then .ok (define_variables_mtz s1 inst)
  else if s1.formulation = "SCF" then .ok (define_variables_scf s1 inst)
  else if s1.formulation = "MCF" then .ok (define_variables_mcf s1 inst)
  else .error (.valueError "Formulation not recognized")

/-- One summand of the MTZ cardinality constraint, for an edge `(i, j)` of
`E`: `self.x[i, j] + self.x[j, i]` (two dict lookups). -/
def mtz_card_term (s : KMSTState) (e : Int × Int) : Except PyError Expr :=
  match dict_get s.x (e.1, e.2) with
  | .error er => .error er
  | .ok xij =>
  match dict_get s.x (e.2, e.1) with
  | .error er => .error er
  | .ok xji => .ok (Expr.add (Expr.var xij) (Expr.var xji))

/-- The two constraints the MTZ loop adds for an arc `(i, j)` of `A`:
`x[i, j] + x[j, i] <= 1` and
`u[i] + x[i, j] - u[j] <= (k - 1) * (1 - x[i, j])`. -/
def mtz_arc_constraints (s : KMSTState) (k : Int) (a : Int × Int) :
    Except PyError (List Constraint) :=
  match dict_get s.x (a.1, a.2) with
  | .error er => .error er
  | .ok xij =>
  match dict_get s.x (a.2, a.1) with
  | .error er => .error er
  | .ok xji =>
  match dict_get s.u a.1 with
  | .error er => .error er
  | .ok ui =>
  match dict_get s.u a.2 with
  | .error er => .error er
  | .ok uj =>
    .ok [⟨Expr.add (Expr.var xij) (Expr.var xji), Rel.le, Expr.const 1⟩,
         ⟨Expr.sub (Expr.add (Expr.var ui) (Expr.var xij)) (Expr.var uj), Rel.le,
          Expr.mul (k - 1) (Expr.sub (Expr.const 1) (Expr.var xij))⟩]

/-- `KMST.define_constraints_mtz`: add
`sum over E of (x[i, j] + x[j, i]) == k - 1`, then for every arc the
single-orientation and sequencing constraints, in loop order. -/
def define_constraints_mtz (s : KMSTState) (inst : Instance) : Except PyError KMSTState :=
  match mapE (mtz_card_term s) inst.E with
  | .error er => .error er
  | .ok card_terms =>
  match mapE (mtz_arc_constraints s inst.k) inst.A with
  | .error er => .error er
  | .ok arc_cs =>
    let card_c : Constraint := ⟨py_sum card_terms, Rel.eq, Expr.const (inst.k - 1)⟩
    .ok { s with solver := { s.solver with
      constraints := s.solver.constraints ++ card_c :: arc_cs.join } }

/-- `KMST.define_constraints`: dispatch on the formulation tag; unrecognized
tags raise `ValueError('Formulation not recognized')`. -/
def define_constraints (s : KMSTState) (inst : Instance) : Except PyError KMSTState :=
  if s.formulation = "MTZ" then define_constraints_mtz s inst
  else if s.formulation = "SCF" then .ok (define_constraints_scf s inst)
  else if s.formulation = "MCF" then .ok (define_constraints_mcf s inst)
  else .error (.valueError "Formulation not recognized")

/-- One objective summand `self.x[key] * instance.weights[key]`: the `x`
lookup is evaluated first, then the weight lookup (Python evaluation
order). -/
def obj_term (s : KMSTState) (inst : Instance) (key : Int × Int) : Except PyError Expr :=
  match dict_get s.x key with
  | .error er => .error er
  | .ok xk =>
  match dict_get inst.weights key with
  | .error er => .error er
  | .ok w => .ok (Expr.mul w (Expr.var xk))

/-- `KMST.define_objective`: under MTZ, minimize the sum over arcs of `A` of
`x[i, j] * weights[i, j]`; under SCF or MCF, minimize the sum over `E` of
`x[e] * weights[e]`; any other tag raises
`ValueError('Formulation not recognized')`. -/
def define_objective (s : KMSTState) (inst : Instance) : Except PyError KMSTState :=
  if s.formulation = "MTZ" then
    match mapE (obj_term s inst) inst.A with
    | .error er => .error er
    | .ok terms =>
      .ok { s with solver := { s.solver with objective := some ⟨py_sum terms, true⟩ } }
  else if s.formulation = "SCF" ∨ s.formulation = "MCF" then
    match mapE (obj_term s inst) inst.E with
    | .error er => .error er
    | .ok terms =>
      .ok { s with solver := { s.solver with objective := some ⟨py_sum terms, true⟩ } }
  else .error (.valueError "Formulation not recognized")

/-- `KMST.solve`: ask the external engine for a terminal status; return
`True` and print the solved line exactly on `OPTIMAL`, else print the
not-solved line and return `False`. -/
def solve (st : Status) (inst : Instance) : Bool × Event :=
  if st = Status.optimal then (true, Event.solved_report inst.name)
  else (false, Event.not_solved_report inst.name)

/-- `KMST.validate`: diagnostic inspection of the solved subgraph; modelled
as its console report for the instance. -/
def validate (inst : Instance) : Event := Event.validation_report inst.name

/-- One iteration of the `KMST.run` loop for a stored instance: define
variables, constraints and objective, solve (the engine's status is
`statusOf` applied to the instance's dict key), and validate only when the
solve returned `True`. -/
def run_instance (statusOf : String → Status) (s : KMSTState) (key : String) (inst : Instance) :
    Except PyError (KMSTState × List Event) :=
  match define_variables s inst with
  | .error e => .error e
  | .ok s1 =>
  match define_constraints s1 inst with
  | .error e => .error e
  | .ok s2 =>
  match define_objective s2 inst with
  | .error e => .error e
  | .ok s3 =>
    let r := solve (statusOf key) inst
    if r.1 then .ok (s3, [r.2, validate inst]) else .ok (s3, [r.2])

/-- The `for instance_name, instance in self.instances.items()` loop of
`KMST.run`, threading the single shared solver state through every
instance. -/
def run_loop (statusOf : String → Status) : KMSTState → List (String × Instance) →
    Except PyError (KMSTState × List Event)
  | s, [] => .ok (s, [])
  | s, (key, inst) :: rest =>
    match run_instance statusOf s key inst with
    | .error e => .error e
    | .ok (s1, ev) =>
      match run_loop statusOf s1 rest with
      | .error e => .error e
      | .ok (s2, evs) => .ok (s2, ev ++ evs)

/-- `KMST.run`: load all instances, then process them in order.  Exceptions
from loading or from any pipeline step propagate (there is no try/except in
`run`). -/
def run (s : KMSTState) (files : String → Option (List (List Int))) (statusOf : String → Status) :
    Except PyError (KMSTState × List Event) :=
  match load_instances s files with
  | .error e => .error e
  | .ok s1 => run_loop statusOf s1 s1.instances

/-- The cardinality constraint family exactly as the spec words it:
"`sum over (i,j) in E of (x[i,j] + x[j,i]) = k - 1`". -/
def spec_cardinality (inst : Instance) : Constraint :=
  ⟨py_sum (inst.E.map fun e =>
      Expr.add (Expr.var (x_name e.1 e.2)) (Expr.var (x_name e.2 e.1))),
   Rel.eq, Expr.const (inst.k - 1)⟩

/-- The single-orientation family exactly as the spec words it: for every
arc `(i,j)` of `A`, "`x[i,j] + x[j,i] <= 1`". -/
def spec_orientation (a : Int × Int) : Constraint :=
  ⟨Expr.add (Expr.var (x_name a.1 a.2)) (Expr.var (x_name a.2 a.1)), Rel.le, Expr.const 1⟩

/-- The sequencing family exactly as the spec words it: for every arc
`(i,j)` of `A`, "`u[i] + x[i,j] - u[j] <= (k-1) * (1 - x[i,j])`". -/
def spec_sequencing (inst : Instance) (a : Int × Int) : Constraint :=
  ⟨Expr.sub (Expr.add (Expr.var (u_name a.1)) (Expr.var (x_name a.1 a.2)))
      (Expr.var (u_name a.2)),
   Rel.le, Expr.mul (inst.k - 1) (Expr.sub (Expr.const 1) (Expr.var (x_name a.1 a.2)))⟩

/-- Instance well-formedness implicit in the spec's data model (section 3):
every edge joins declared vertex ids. -/
def wf (inst : Instance) : Prop := ∀ e ∈ inst.E, e.1 ∈ inst.V ∧ e.2 ∈ inst.V

instance wf_decidable (inst : Instance) : Decidable (wf inst) :=
  decidable_of_iff (∀ e ∈ inst.E, e.1 ∈ inst.V ∧ e.2 ∈ inst.V) Iff.rfl

/-- The weight the dict lookup yields for an arc (the first matching entry;
the default 0 is never reached when the lookup succeeds). -/
def weight_of (inst : Instance) (a : Int × Int) : Int :=
  match dict_get inst.weights a with
  | .ok w => w
  | .error _ => 0

/-- A Python object reachable from an `Instance` attribute slot: the vertex
set, the edge set, or the weight dict. -/
inductive PyObj where
  | vertex_set (l : List Int)
  | edge_set (l : List (Int × Int))
  | weight_map (l : List ((Int × Int) × Int))

/-- An `Instance` object as a record of attribute slots: immediate values
(`name`, `n`, `m`, `k`) and heap references to the shared `V`, `E` and
`weights` objects.  Used to model Python aliasing under `copy.copy`. -/
structure InstanceRef where
  name : String
  n : Int
  m : Int
  v_addr : Nat
  e_addr : Nat
  w_addr : Nat
  k : Int
deriving DecidableEq, Repr

/-- Heap of graph-data objects plus the local variable environment of
`load_instances`. -/
structure PyHeapState where
  heap : Nat → PyObj
  env : String → InstanceRef

/-- `copy.copy(instance_0)`: a shallow copy is a new object carrying the
same attribute slots, so the heap references stay shared. -/
def py_copy (r : InstanceRef) : InstanceRef := r

/-- Attribute assignment `obj.k = v`: rebinds only the `k` slot of that
object. -/
def set_attr_k (r : InstanceRef) (v : Int) : InstanceRef := { r with k := v }

/-- Assignment to a local variable. -/
def assign_var (s : PyHeapState) (x : String) (r : InstanceRef) : PyHeapState :=
  { s with env := fun y => if y = x then r else s.env y }

/-- Lines 31-32 of kmst.py: `instance_1 = copy(instance_0)` followed by
`instance_1.k = <newk>` (at line 32 the value is `ceil(instance_1.n / 2)`;
the assigned value is a parameter here). -/
def clone_and_set_k (s : PyHeapState) (newk : Int) : PyHeapState :=
  let s1 := assign_var s "instance_1" (py_copy (s.env "instance_0"))
  assign_var s1 "instance_1" (set_attr_k (s1.env "instance_1") newk)

/-- A tiny instance fixture: one vertex, no edges. -/
def w_inst : Instance := ⟨"instance_0w", 0, 0, [0], [], [], 0⟩

/-- A small instance fixture: one edge with both arc weights recorded. -/
def w_inst2 : Instance := ⟨"instance_77", 1, 1, [0, 1], [(0, 1)], [((0, 1), 5), ((1, 0), 5)], 2⟩

/-- The solver state after running `w_inst` once under MTZ from a fresh
driver (computed by evaluation; used to instantiate run hypotheses). -/
def w_s1 : KMSTState :=
  ⟨[], "MTZ", "data", [],
   ⟨[⟨1, 0, "u_0"⟩],
    [⟨Expr.const 0, Rel.eq, Expr.const (-1)⟩],
    some ⟨Expr.const 0, true⟩⟩,
   [], [(0, "u_0")], []⟩

/-- The solver state after running `w_inst` twice under MTZ from a fresh
driver: the first run's variable and constraint are still present. -/
def w_s2 : KMSTState :=
  ⟨[], "MTZ", "data", [],
   ⟨[⟨1, 0, "u_0"⟩, ⟨1, 0, "u_0"⟩],
    [⟨Expr.const 0, Rel.eq, Expr.const (-1)⟩, ⟨Expr.const 0, Rel.eq, Expr.const (-1)⟩],
    some ⟨Expr.const 0, true⟩⟩,
   [], [(0, "u_0")], []⟩

/-- Events of one optimally-solved pipeline run of `w_inst`. -/
def w_ev : List Event :=
  [Event.solved_report "instance_0w", Event.validation_report "instance_0w"]

/-- A filesystem fixture in which only `data/g02.dat` exists (a two-line,
edgeless file) while `data/g01.dat` is missing. -/
def cex_files : String → Option (List (List Int)) :=
  fun p => if p = "data/g02.dat" then some [[2], [1]] else none

/-- A driver configured with the two base instances `01` and `02` over
`cex_files`: loading `01` fails, loading `02` would succeed. -/
def cex_state : KMSTState := init ["01", "02"] "MTZ" "data"

/-- The instance that `data/g02.dat` of `cex_files` parses to. -/
def inst02 : Instance := ⟨"instance_02", 1, 0, [0, 1], [], [], 0⟩

/-- A filesystem fixture holding one instance file `data/g07.dat` with three
vertices and one weighted edge. -/
def files07 : String → Option (List (List Int)) :=
  fun p => if p = "data/g07.dat" then some [[3], [2], [9, 0, 1, 4]] else none

/-- The instance that `data/g07.dat` of `files07` parses to. -/
def inst07 : Instance := ⟨"instance_07", 2, 1, [0, 1, 2], [(0, 1)], [((0, 1), 4)], 0⟩

/-- A status oracle that reports OPTIMAL for every solve. -/
def w_status_good : String → Status := fun _ => Status.optimal

/-- A status oracle that reports a non-optimal terminal status for every
solve. -/
def w_status_bad : String → Status := fun _ => Status.notSolvedStatus

/-- The loader result oracle for `files07`. -/
def w_load07 : String → Instance := fun _ => inst07

/-- A driver configured with base instances `02` then `01` over `cex_files`:
the first loads fine, the second is missing. -/
def cex_state2 : KMSTState := init ["02", "01"] "MTZ" "data"

/-- A loop whose body succeeds on every element evaluates to the list of
its results. -/
theorem mapE_ok {α β : Type} (g : α → Except PyError β) (h : α → β) :
    ∀ l : List α, (∀ a ∈ l, g a = .ok (h a)) → mapE g l = .ok (l.map h) := by
  intro l
  induction l with
  | nil => intro _; rfl
  | cons a t ih =>
    intro hall
    have ha : g a = .ok (h a) := hall a (List.mem_cons_self a t)
    have ht := ih (fun b hb => hall b (List.mem_cons_of_mem a hb))
    simp [mapE, ha, ht]

/-- A loop whose body raises on the first element raises that exception. -/
theorem mapE_error_head {α β : Type} (g : α → Except PyError β) (a : α) (l : List α)
    (e : PyError) (h : g a = .error e) : mapE g (a :: l) = .error e := by
  simp [mapE, h]

/-- Looking a key up in a dict whose entries pair each key with `h key`
yields `h key`, provided the key occurs. -/
theorem dict_get_map {α β : Type} [DecidableEq α] (h : α → β) :
    ∀ (l : List α) (a : α), a ∈ l → dict_get (l.map fun z => (z, h z)) a = .ok (h a) := by
  intro l
  induction l with
  | nil => intro a ha; cases ha
  | cons b t ih =>
    intro a ha
    by_cases hab : b = a
    · subst hab; simp [dict_get]
    · have hat : a ∈ t := by
        rcases List.mem_cons.mp ha with h1 | h1
        · exact absurd h1.symm hab
        · exact h1
      simpa [dict_get, hab] using ih a hat

/-- Membership in the arc set `A`: the two orientations of the edges. -/
theorem mem_A_iff (inst : Instance) (a : Int × Int) :
    a ∈ inst.A ↔ ∃ e ∈ inst.E, a = e ∨ a = (e.2, e.1) := by
  unfold Instance.A
  simp only [List.mem_dedup, List.mem_bind, List.mem_cons, List.mem_singleton,
    List.not_mem_nil, or_false]

/-- Both orientations of an edge are arcs. -/
theorem mem_A_of_mem_E (inst : Instance) (e : Int × Int) (he : e ∈ inst.E) :
    e ∈ inst.A ∧ (e.2, e.1) ∈ inst.A := by
  constructor
  · exact (mem_A_iff inst e).mpr ⟨e, he, Or.inl rfl⟩
  · exact (mem_A_iff inst (e.2, e.1)).mpr ⟨e, he, Or.inr rfl⟩

/-- The arc set is closed under swapping the endpoints. -/
theorem swap_mem_A (inst : Instance) (a : Int × Int) (ha : a ∈ inst.A) :
    (a.2, a.1) ∈ inst.A := by
  rw [mem_A_iff] at ha ⊢
  obtain ⟨e, he, h | h⟩ := ha
  · exact ⟨e, he, Or.inr (by rw [h])⟩
  · refine ⟨e, he, Or.inl ?_⟩
    rw [h]

/-- In a well-formed instance every arc joins declared vertices. -/
theorem mem_A_endpoints (inst : Instance) (hwf : wf inst) (a : Int × Int)
    (ha : a ∈ inst.A) : a.1 ∈ inst.V ∧ a.2 ∈ inst.V := by
  rw [mem_A_iff] at ha
  obtain ⟨e, he, h | h⟩ := ha
  · rw [h]; exact hwf e he
  · rw [h]; exact ⟨(hwf e he).2, (hwf e he).1⟩

/-- The derived arc list has no duplicates (it is a Python set). -/
theorem A_nodup (inst : Instance) : inst.A.Nodup := List.nodup_dedup _

/-- Under the MTZ tag, `define_variables` dispatches to the MTZ body on the
reset state. -/
theorem dv_mtz (s : KMSTState) (inst : Instance) (hf : s.formulation = "MTZ") :
    define_variables s inst =
      .ok (define_variables_mtz { s with x := [], u := [], f := [] } inst) := by
  simp [define_variables, hf]

/-- After the MTZ variable definitions the `x` mapping holds exactly the arc
variables. -/
theorem dv_mtz_x (s : KMSTState) (inst : Instance) :
    (define_variables_mtz { s with x := [], u := [], f := [] } inst).x
      = inst.A.map (fun a => (a, x_name a.1 a.2)) := by
  simp [define_variables_mtz]

/-- After the MTZ variable definitions the `u` mapping holds exactly the
vertex sequence variables. -/
theorem dv_mtz_u (s : KMSTState) (inst : Instance) :
    (define_variables_mtz { s with x := [], u := [], f := [] } inst).u
      = inst.V.map (fun v => (v, u_name v)) := by
  simp [define_variables_mtz]

/-- With the MTZ variable mappings in place, every cardinality summand
lookup succeeds and produces the spec's term. -/
theorem card_terms_ok (s1 : KMSTState) (inst : Instance)
    (hx : s1.x = inst.A.map (fun a => (a, x_name a.1 a.2))) :
    mapE (mtz_card_term s1) inst.E = .ok (inst.E.map fun e =>
      Expr.add (Expr.var (x_name e.1 e.2)) (Expr.var (x_name e.2 e.1))) := by
  apply mapE_ok
  intro e he
  obtain ⟨h1, h2⟩ := mem_A_of_mem_E inst e he
  simp [mtz_card_term, hx,
    dict_get_map (fun z => x_name z.1 z.2) inst.A (e.1, e.2) h1,
    dict_get_map (fun z => x_name z.1 z.2) inst.A (e.2, e.1) h2]

/-- With the MTZ variable mappings in place, every per-arc constraint pair is
built successfully and equals the spec's orientation and sequencing
constraints. -/
theorem arc_cs_ok (s1 : KMSTState) (inst : Instance) (hwf : wf inst)
    (hx : s1.x = inst.A.map (fun a => (a, x_name a.1 a.2)))
    (hu : s1.u = inst.V.map (fun v => (v, u_name v))) :
    mapE (mtz_arc_constraints s1 inst.k) inst.A
      = .ok (inst.A.map fun a => [spec_orientation a, spec_sequencing inst a]) := by
  apply mapE_ok
  intro a ha
  have h1 : (a.1, a.2) ∈ inst.A := ha
  have h2 := swap_mem_A inst a ha
  have h3 := (mem_A_endpoints inst hwf a ha).1
  have h4 := (mem_A_endpoints inst hwf a ha).2
  simp [mtz_arc_constraints, hx, hu, spec_orientation, spec_sequencing,
    dict_get_map (fun z => x_name z.1 z.2) inst.A (a.1, a.2) h1,
    dict_get_map (fun z => x_name z.1 z.2) inst.A (a.2, a.1) h2,
    dict_get_map u_name inst.V a.1 h3,
    dict_get_map u_name inst.V a.2 h4]

/-- C1: under the MTZ tag, `define_constraints` (after `define_variables`)
adds to the solver exactly the cardinality constraint over `E`, and, per arc
of `A`, the single-orientation and sequencing constraints, and nothing
else. -/
theorem mtz_constraints_exact (s0 : KMSTState) (inst : Instance)
    (hf : s0.formulation = "MTZ") (hwf : wf inst) :
    ∃ s1 s2, define_variables s0 inst = .ok s1 ∧
      s1.solver.constraints = s0.solver.constraints ∧
      define_constraints s1 inst = .ok s2 ∧
      s2.solver.constraints = s1.solver.constraints ++
        spec_cardinality inst ::
          (inst.A.map fun a => [spec_orientation a, spec_sequencing inst a]).join := by
  obtain ⟨s1, hdv, hx, hu, hform, hcons⟩ :
      ∃ s1, define_variables s0 inst = .ok s1 ∧
        s1.x = inst.A.map (fun a => (a, x_name a.1 a.2)) ∧
        s1.u = inst.V.map (fun v => (v, u_name v)) ∧
        s1.formulation = "MTZ" ∧
        s1.solver.constraints = s0.solver.constraints :=
    ⟨_, dv_mtz s0 inst hf, dv_mtz_x s0 inst, dv_mtz_u s0 inst, hf, rfl⟩
  have hcard := card_terms_ok s1 inst hx
  have harc := arc_cs_ok s1 inst hwf hx hu
  refine ⟨s1, { s1 with solver := { s1.solver with
      constraints := s1.solver.constraints ++ spec_cardinality inst ::
        (inst.A.map fun a => [spec_orientation a, spec_sequencing inst a]).join } },
    hdv, hcons, ?_, rfl⟩
  simp [define_constraints, hform, define_constraints_mtz, hcard, harc, spec_cardinality]

/-- C1 witness: the MTZ constraint theorem evaluated on a concrete instance
with one edge. -/
theorem mtz_constraints_exact_witness :
    ∃ s1 s2, define_variables (init [] "MTZ" "data") w_inst2 = .ok s1 ∧
      s1.solver.constraints = (init [] "MTZ" "data").solver.constraints ∧
      define_constraints s1 w_inst2 = .ok s2 ∧
      s2.solver.constraints = s1.solver.constraints ++
        spec_cardinality w_inst2 ::
          (w_inst2.A.map fun a => [spec_orientation a, spec_sequencing w_inst2 a]).join :=
  mtz_constraints_exact (init [] "MTZ" "data") w_inst2 rfl (by decide)

/-- After the MTZ variable definitions the solver holds the prior variables
followed by one binary variable per arc and one bounded integer variable per
vertex. -/
theorem dv_mtz_vars (s : KMSTState) (inst : Instance) :
    (define_variables_mtz { s with x := [], u := [], f := [] } inst).solver.vars
      = s.solver.vars ++ inst.A.map (fun a => ⟨0, 1, x_name a.1 a.2⟩)
        ++ inst.V.map (fun v => ⟨1, inst.k, u_name v⟩) := by
  simp [define_variables_mtz]

/-- With the MTZ variable mappings in place and total weights, every
objective summand lookup succeeds. -/
theorem obj_terms_ok (s1 : KMSTState) (inst : Instance)
    (hx : s1.x = inst.A.map (fun a => (a, x_name a.1 a.2)))
    (hw : ∀ a ∈ inst.A, dict_get inst.weights a = .ok (weight_of inst a)) :
    mapE (obj_term s1 inst) inst.A = .ok (inst.A.map fun a =>
      Expr.mul (weight_of inst a) (Expr.var (x_name a.1 a.2))) := by
  apply mapE_ok
  intro a ha
  simp [obj_term, hx, dict_get_map (fun z => x_name z.1 z.2) inst.A a ha, hw a ha]

/-- C2: under the MTZ tag, `define_variables` creates exactly one binary
(0..1) variable per arc of `A` and one integer variable bounded `[1, k]` per
vertex of `V`, and `define_objective` sets the objective to minimize the sum
over arcs of `x[i,j] * weights[i,j]`.  The weight-totality hypothesis is the
spec's invariant that every arc of `A` has a weight entry. -/
theorem mtz_variables_objective (s0 : KMSTState) (inst : Instance)
    (hf : s0.formulation = "MTZ")
    (hw : ∀ a ∈ inst.A, dict_get inst.weights a = .ok (weight_of inst a)) :
    ∃ s1, define_variables s0 inst = .ok s1 ∧
      s1.solver.vars = s0.solver.vars
        ++ inst.A.map (fun a => ⟨0, 1, x_name a.1 a.2⟩)
        ++ inst.V.map (fun v => ⟨1, inst.k, u_name v⟩) ∧
      inst.A.Nodup ∧
      ∃ s2, define_objective s1 inst = .ok s2 ∧
        s2.solver.objective = some ⟨py_sum (inst.A.map fun a =>
          Expr.mul (weight_of inst a) (Expr.var (x_name a.1 a.2))), true⟩ := by
  obtain ⟨s1, hdv, hx, hform, hvars⟩ :
      ∃ s1, define_variables s0 inst = .ok s1 ∧
        s1.x = inst.A.map (fun a => (a, x_name a.1 a.2)) ∧
        s1.formulation = "MTZ" ∧
        s1.solver.vars = s0.solver.vars
          ++ inst.A.map (fun a => ⟨0, 1, x_name a.1 a.2⟩)
          ++ inst.V.map (fun v => ⟨1, inst.k, u_name v⟩) :=
    ⟨_, dv_mtz s0 inst hf, dv_mtz_x s0 inst, hf, dv_mtz_vars s0 inst⟩
  have hterms := obj_terms_ok s1 inst hx hw
  refine ⟨s1, hdv, hvars, A_nodup inst,
    { s1 with solver := { s1.solver with objective := some ⟨py_sum (inst.A.map fun a =>
        Expr.mul (weight_of inst a) (Expr.var (x_name a.1 a.2))), true⟩ } }, ?_, rfl⟩
  simp [define_objective, hform, hterms]

/-- C2 witness: the MTZ variables-and-objective theorem on a concrete
instance whose weight dict covers both arc orientations. -/
theorem mtz_variables_objective_witness :
    ∃ s1, define_variables (init [] "MTZ" "data") w_inst2 = .ok s1 ∧
      s1.solver.vars = (init [] "MTZ" "data").solver.vars
        ++ w_inst2.A.map (fun a => ⟨0, 1, x_name a.1 a.2⟩)
        ++ w_inst2.V.map (fun v => ⟨1, w_inst2.k, u_name v⟩) ∧
      w_inst2.A.Nodup ∧
      ∃ s2, define_objective s1 w_inst2 = .ok s2 ∧
        s2.solver.objective = some ⟨py_sum (w_inst2.A.map fun a =>
          Expr.mul (weight_of w_inst2 a) (Expr.var (x_name a.1 a.2))), true⟩ :=
  mtz_variables_objective (init [] "MTZ" "data") w_inst2 rfl (by decide)

/-- A successful `define_variables` call only appends solver variables and
leaves the constraint list untouched. -/
theorem dv_extends (s : KMSTState) (inst : Instance) (s1 : KMSTState)
    (h : define_variables s inst = .ok s1) :
    (∃ t, s1.solver.vars = s.solver.vars ++ t) ∧
      s1.solver.constraints = s.solver.constraints := by
  simp only [define_variables] at h
  split at h
  · injection h with h2
    subst h2
    constructor
    · exact ⟨inst.A.map (fun a => (⟨0, 1, x_name a.1 a.2⟩ : Var))
        ++ inst.V.map (fun v => (⟨1, inst.k, u_name v⟩ : Var)),
        by rw [dv_mtz_vars s inst, List.append_assoc]⟩
    · rfl
  · split at h
    · injection h with h2
      subst h2
      exact ⟨⟨[], by simp [define_variables_scf]⟩, rfl⟩
    · split at h
      · injection h with h2
        subst h2
        exact ⟨⟨[], by simp [define_variables_mcf]⟩, rfl⟩
      · exact absurd h (by simp)

/-- A successful `define_constraints` call only appends solver constraints
and leaves the variable list untouched. -/
theorem dc_extends (s : KMSTState) (inst : Instance) (s1 : KMSTState)
    (h : define_constraints s inst = .ok s1) :
    (∃ t, s1.solver.constraints = s.solver.constraints ++ t) ∧
      s1.solver.vars = s.solver.vars := by
  simp only [define_constraints] at h
  split at h
  · simp only [define_constraints_mtz] at h
    split at h
    · exact absurd h (by simp)
    · split at h
      · exact absurd h (by simp)
      · injection h with h2
        subst h2
        exact ⟨⟨_, rfl⟩, rfl⟩
  · split at h
    · injection h with h2
      subst h2
      exact ⟨⟨[], by simp [define_constraints_scf]⟩, rfl⟩
    · split at h
      · injection h with h2
        subst h2
        exact ⟨⟨[], by simp [define_constraints_mcf]⟩, rfl⟩
      · exact absurd h (by simp)

/-- A successful `define_objective` call changes neither the variable nor
the constraint list. -/
theorem dobj_frame (s : KMSTState) (inst : Instance) (s1 : KMSTState)
    (h : define_objective s inst = .ok s1) :
    s1.solver.vars = s.solver.vars ∧ s1.solver.constraints = s.solver.constraints := by
  simp only [define_objective] at h
  split at h
  · split at h
    · exact absurd h (by simp)
    · injection h with h2
      subst h2
      exact ⟨rfl, rfl⟩
  · split at h
    · split at h
      · exact absurd h (by simp)
      · injection h with h2
        subst h2
        exact ⟨rfl, rfl⟩
    · exact absurd h (by simp)

/-- One pipeline run over an instance only appends to the solver's variable
and constraint lists. -/
theorem run_instance_extends (statusOf : String → Status) (s : KMSTState) (key : String)
    (inst : Instance) (s1 : KMSTState) (ev : List Event)
    (h : run_instance statusOf s key inst = .ok (s1, ev)) :
    (∃ t, s1.solver.vars = s.solver.vars ++ t) ∧
      (∃ t, s1.solver.constraints = s.solver.constraints ++ t) := by
  simp only [run_instance] at h
  cases hva : define_variables s inst with
  | error e => simp [hva] at h
  | ok sa =>
    simp only [hva] at h
    cases hvb : define_constraints sa inst with
    | error e => simp [hvb] at h
    | ok sb =>
      simp only [hvb] at h
      cases hvc : define_objective sb inst with
      | error e => simp [hvc] at h
      | ok sc =>
        simp only [hvc] at h
        have hsc : sc = s1 := by
          by_cases hr : (solve (statusOf key) inst).1
          · rw [if_pos hr] at h
            exact congrArg Prod.fst (Except.ok.inj h)
          · rw [if_neg hr] at h
            exact congrArg Prod.fst (Except.ok.inj h)
        subst hsc
        obtain ⟨⟨t1, ht1⟩, hc1⟩ := dv_extends s inst sa hva
        obtain ⟨⟨t2, ht2⟩, hv2⟩ := dc_extends sa inst sb hvb
        obtain ⟨hv3, hc3⟩ := dobj_frame sb inst sc hvc
        constructor
        · exact ⟨t1, by rw [hv3, hv2, ht1]⟩
        · exact ⟨t2, by rw [hc3, ht2, hc1]⟩

/-- The whole run loop only appends to the solver's variable and constraint
lists. -/
theorem run_loop_extends (statusOf : String → Status) :
    ∀ (l : List (String × Instance)) (s s2 : KMSTState) (evs : List Event),
      run_loop statusOf s l = .ok (s2, evs) →
      (∃ t, s2.solver.vars = s.solver.vars ++ t) ∧
        (∃ t, s2.solver.constraints = s.solver.constraints ++ t) := by
  intro l
  induction l with
  | nil =>
    intro s s2 evs h
    simp only [run_loop] at h
    have hs : s = s2 := congrArg Prod.fst (Except.ok.inj h)
    subst hs
    exact ⟨⟨[], by simp⟩, ⟨[], by simp⟩⟩
  | cons p rest ih =>
    intro s s2 evs h
    obtain ⟨key, inst⟩ := p
    simp only [run_loop] at h
    cases h1 : run_instance statusOf s key inst with
    | error e => simp [h1] at h
    | ok pr =>
      obtain ⟨sa, ev⟩ := pr
      simp only [h1] at h
      cases h2 : run_loop statusOf sa rest with
      | error e => simp [h2] at h
      | ok pr2 =>
        obtain ⟨sb, evs2⟩ := pr2
        simp only [h2] at h
        have hsb : sb = s2 := congrArg Prod.fst (Except.ok.inj h)
        subst hsb
        obtain ⟨⟨t1, ht1⟩, ⟨t2, ht2⟩⟩ := run_instance_extends statusOf s key inst sa ev h1
        obtain ⟨⟨t3, ht3⟩, ⟨t4, ht4⟩⟩ := ih sa sb evs2 h2
        exact ⟨⟨t1 ++ t3, by rw [ht3, ht1, List.append_assoc]⟩,
               ⟨t2 ++ t4, by rw [ht4, ht2, List.append_assoc]⟩⟩

/-- C3: across a run split into an earlier and a later batch of instances,
the single solver state is never reset: everything the earlier batch added
is still present (as a prefix) after the later batch is formulated and
solved; and `define_variables` replaces only the Python mappings `x`, `u`,
`f` (its result ignores their previous values), not the solver state. -/
theorem solver_accumulates_across_instances (statusOf : String → Status)
    (s0 s1 s2 : KMSTState) (l1 l2 : List (String × Instance)) (e1 e2 : List Event)
    (h1 : run_loop statusOf s0 l1 = .ok (s1, e1))
    (h2 : run_loop statusOf s1 l2 = .ok (s2, e2)) :
    ((∃ t, s1.solver.vars = s0.solver.vars ++ t) ∧
     (∃ t, s1.solver.constraints = s0.solver.constraints ++ t)) ∧
    ((∃ t, s2.solver.vars = s1.solver.vars ++ t) ∧
     (∃ t, s2.solver.constraints = s1.solver.constraints ++ t)) ∧
    (∀ (s : KMSTState) (inst : Instance) (xs : List ((Int × Int) × String))
       (us : List (Int × String)) (fs : List ((Int × Int) × String)),
       define_variables { s with x := xs, u := us, f := fs } inst = define_variables s inst) := by
  refine ⟨run_loop_extends statusOf l1 s0 s1 e1 h1,
          run_loop_extends statusOf l2 s1 s2 e2 h2, ?_⟩
  intro s inst xs us fs
  rfl

/-- C3 witness: running one instance and then a second from the resulting
state keeps the first run's variable and constraint in the solver. -/
theorem solver_accumulates_across_instances_witness :
    (∃ t, w_s2.solver.vars = w_s1.solver.vars ++ t) ∧
    (∃ t, w_s2.solver.constraints = w_s1.solver.constraints ++ t) :=
  (solver_accumulates_across_instances w_status_good (init [] "MTZ" "data") w_s1 w_s2
    [("a", w_inst)] [("b", w_inst)] w_ev w_ev (by decide) (by decide)).2.1

/-- C9: `solve` returns True exactly on status OPTIMAL; a pipeline run over
an instance emits the validation report exactly when the status is OPTIMAL
and otherwise reports the failure for that instance; and the run loop
continues with the remaining instances regardless of the outcome of the
current one. -/
theorem validation_iff_optimal :
    (∀ (st : Status) (inst : Instance), (solve st inst).1 = true ↔ st = Status.optimal) ∧
    (∀ (statusOf : String → Status) (s : KMSTState) (key : String) (inst : Instance)
       (s1 : KMSTState) (evs : List Event),
       run_instance statusOf s key inst = .ok (s1, evs) →
         ((validate inst ∈ evs ↔ statusOf key = Status.optimal) ∧
          (statusOf key ≠ Status.optimal → evs = [Event.not_solved_report inst.name]))) ∧
    (∀ (statusOf : String → Status) (s : KMSTState) (key : String) (inst : Instance)
       (rest : List (String × Instance)) (s1 s2 : KMSTState) (ev evs : List Event),
       run_instance statusOf s key inst = .ok (s1, ev) →
       run_loop statusOf s1 rest = .ok (s2, evs) →
       run_loop statusOf s ((key, inst) :: rest) = .ok (s2, ev ++ evs)) := by
  refine ⟨?_, ?_, ?_⟩
  · intro st inst
    by_cases h : st = Status.optimal <;> simp [solve, h]
  · intro statusOf s key inst s1 evs h
    simp only [run_instance] at h
    cases hva : define_variables s inst with
    | error e => simp [hva] at h
    | ok sa =>
      simp only [hva] at h
      cases hvb : define_constraints sa inst with
      | error e => simp [hvb] at h
      | ok sb =>
        simp only [hvb] at h
        cases hvc : define_objective sb inst with
        | error e => simp [hvc] at h
        | ok sc =>
          simp only [hvc] at h
          by_cases hst : statusOf key = Status.optimal
          · simp only [solve, hst, if_pos rfl] at h
            have hevs : [Event.solved_report inst.name, validate inst] = evs :=
              congrArg Prod.snd (Except.ok.inj h)
            subst hevs
            simp [validate, hst]
          · simp only [solve, if_neg hst] at h
            have hevs : [Event.not_solved_report inst.name] = evs :=
              congrArg Prod.snd (Except.ok.inj h)
            subst hevs
            simp [validate, hst]
  · intro statusOf s key inst rest s1 s2 ev evs h1 h2
    simp [run_loop, h1, h2]

/-- C9 witness: a pipeline run under a non-optimal status emits no
validation report. -/
theorem validation_iff_optimal_witness :
    validate w_inst ∈ [Event.not_solved_report "instance_0w"] ↔
      w_status_bad "a" = Status.optimal :=
  ((validation_iff_optimal.2.1 w_status_bad (init [] "MTZ" "data") "a" w_inst w_s1
    [Event.not_solved_report "instance_0w"] (by decide))).1

/-- C4: for any formulation tag other than MTZ, SCF and MCF, each of the
three definition entry points raises the unknown-formulation error
(`ValueError('Formulation not recognized')`, the spec's
`UnknownFormulationError`). -/
theorem unknown_formulation_raises (s : KMSTState) (inst : Instance)
    (h1 : s.formulation ≠ "MTZ") (h2 : s.formulation ≠ "SCF") (h3 : s.formulation ≠ "MCF") :
    define_variables s inst = .error (PyError.valueError "Formulation not recognized") ∧
    define_constraints s inst = .error (PyError.valueError "Formulation not recognized") ∧
    define_objective s inst = .error (PyError.valueError "Formulation not recognized") := by
  refine ⟨?_, ?_, ?_⟩ <;>
    simp [define_variables, define_constraints, define_objective, h1, h2, h3]

/-- C4 witness: the unknown-tag theorem evaluated at the tag FOO. -/
theorem unknown_formulation_raises_witness :
    define_variables (init [] "FOO" "d") w_inst
        = .error (PyError.valueError "Formulation not recognized") ∧
    define_constraints (init [] "FOO" "d") w_inst
        = .error (PyError.valueError "Formulation not recognized") ∧
    define_objective (init [] "FOO" "d") w_inst
        = .error (PyError.valueError "Formulation not recognized") :=
  unknown_formulation_raises (init [] "FOO" "d") w_inst (by decide) (by decide) (by decide)

/-- C10: under the SCF or MCF tag, `define_variables` only resets the
`x`, `u`, `f` mappings (the variable body is `pass`), `define_constraints`
changes nothing at all, and a subsequent `define_objective` raises
`KeyError` whenever the edge set is non-empty, because it indexes the empty
`x` mapping by an edge of `E`. -/
theorem scf_mcf_unimplemented (s : KMSTState) (inst : Instance)
    (hf : s.formulation = "SCF" ∨ s.formulation = "MCF") (hE : inst.E ≠ []) :
    define_variables s inst = .ok { s with x := [], u := [], f := [] } ∧
    define_constraints s inst = .ok s ∧
    define_objective { s with x := [], u := [], f := [] } inst = .error PyError.keyError := by
  obtain ⟨e, t, hEt⟩ : ∃ e t, inst.E = e :: t := by
    cases hc : inst.E with
    | nil => exact absurd hc hE
    | cons e t => exact ⟨e, t, rfl⟩
  obtain hS | hM := hf
  · have hne : ("SCF" : String) ≠ "MTZ" := by decide
    refine ⟨?_, ?_, ?_⟩
    · simp [define_variables, define_variables_scf, hS, hne]
    · simp [define_constraints, define_constraints_scf, hS, hne]
    · simp [define_objective, hS, hne, hEt, mapE, obj_term, dict_get]
  · have hne : ("MCF" : String) ≠ "MTZ" := by decide
    have hne2 : ("MCF" : String) ≠ "SCF" := by decide
    refine ⟨?_, ?_, ?_⟩
    · simp [define_variables, define_variables_mcf, hM, hne, hne2]
    · simp [define_constraints, define_constraints_mcf, hM, hne, hne2]
    · simp [define_objective, hM, hne, hne2, hEt, mapE, obj_term, dict_get]

/-- C10 witness: the SCF empty-model theorem on a concrete instance with one
edge. -/
theorem scf_mcf_unimplemented_witness :
    define_variables (init [] "SCF" "d") w_inst2
        = .ok { init [] "SCF" "d" with x := [], u := [], f := [] } ∧
    define_constraints (init [] "SCF" "d") w_inst2 = .ok (init [] "SCF" "d") ∧
    define_objective { init [] "SCF" "d" with x := [], u := [], f := [] } w_inst2
        = .error PyError.keyError :=
  scf_mcf_unimplemented (init [] "SCF" "d") w_inst2 (Or.inl rfl) (by decide)

/-- C7: shallow-copying `instance_0` into `instance_1` and then assigning a
new `k` to the clone leaves the original object (its `k` and its `V`, `E`,
`weights` references) and the heap objects untouched, while the clone shares
the graph-data references and carries the new `k`. -/
theorem clone_preserves_original (s : PyHeapState) (newk : Int) :
    (clone_and_set_k s newk).env "instance_0" = s.env "instance_0" ∧
    (clone_and_set_k s newk).heap = s.heap ∧
    ((clone_and_set_k s newk).env "instance_1").v_addr = (s.env "instance_0").v_addr ∧
    ((clone_and_set_k s newk).env "instance_1").e_addr = (s.env "instance_0").e_addr ∧
    ((clone_and_set_k s newk).env "instance_1").w_addr = (s.env "instance_0").w_addr ∧
    ((clone_and_set_k s newk).env "instance_1").k = newk := by
  have hne : ("instance_0" : String) ≠ "instance_1" := by decide
  refine ⟨?_, rfl, ?_, ?_, ?_, ?_⟩ <;>
    simp [clone_and_set_k, assign_var, py_copy, set_attr_k, hne]

/-- C8 counterexample: at `n = 2` (within the claim's range `n >= 2`) the
two sibling targets coincide: `ceil(2 / 5) = ceil(2 / 2) = 1`. -/
theorem sibling_k_claim_fails_at_two :
    (2 : Int) ≥ 2 ∧ ceil_div 2 5 = ceil_div 2 2 := by decide

/-- C8 (amended): the sibling targets `ceil(n / 5)` and `ceil(n / 2)` differ
for every `n >= 3`, and coincide for `0 <= n <= 2`. -/
theorem sibling_k_differ_from_three :
    (∀ n : Int, 3 ≤ n → ceil_div n 5 ≠ ceil_div n 2) ∧
    (∀ n : Int, 0 ≤ n → n ≤ 2 → ceil_div n 5 = ceil_div n 2) := by
  constructor
  · intro n hn
    simp only [ceil_div]
    omega
  · intro n h0 hle
    simp only [ceil_div]
    omega

/-- C8 witness: the amended theorem evaluated at `n = 3`. -/
theorem sibling_k_differ_from_three_witness : ceil_div 3 5 ≠ ceil_div 3 2 :=
  sibling_k_differ_from_three.1 3 (by decide)

/-- When every name loads, `load_instances` stores, per base name, exactly
the `_0` sibling with `k = ceil(n / 5)` and the `_1` sibling with
`k = ceil(n / 2)`. -/
theorem load_instances_list_eq (files : String → Option (List (List Int)))
    (data_path : String) (load : String → Instance) :
    ∀ names : List String,
      (∀ nm ∈ names, load_instance files data_path nm = .ok (load nm)) →
      load_instances_list files data_path names = .ok (names.bind fun nm =>
        [(nm ++ "_0", { load nm with k := ceil_div (load nm).n 5 }),
         (nm ++ "_1", { load nm with k := ceil_div (load nm).n 2 })]) := by
  intro names
  induction names with
  | nil => intro _; rfl
  | cons nm rest ih =>
    intro h
    have h0 : load_instance files data_path nm = .ok (load nm) :=
      h nm (List.mem_cons_self nm rest)
    have ht := ih (fun p hp => h p (List.mem_cons_of_mem nm hp))
    simp [load_instances_list, h0, ht]

/-- Every successfully loaded instance has `V = range(0, n + 1)` and no `k`
assigned yet. -/
theorem load_instance_shape (files : String → Option (List (List Int)))
    (data_path nm : String) (inst : Instance)
    (h : load_instance files data_path nm = .ok inst) :
    inst.V = (List.range (inst.n + 1).toNat).map (fun i => Int.ofNat i) ∧ inst.k = 0 := by
  simp only [load_instance] at h
  split at h
  · exact absurd h (by simp)
  · simp only [parse_instance] at h
    split at h
    · exact absurd h (by simp)
    · split at h
      · exact absurd h (by simp)
      · split at h
        · exact absurd h (by simp)
        · split at h
          · exact absurd h (by simp)
          · split at h
            · exact absurd h (by simp)
            · injection h with h2
              subst h2
              exact ⟨rfl, rfl⟩

/-- C6: for every named base instance that loads, `load_instances` creates
exactly the two siblings, `_0` with `k = ceil(n / 5)` and `_1` with
`k = ceil(n / 2)`, sharing the same `V`, `E` and `weights` data; and for a
loaded instance `n` is the vertex count minus one. -/
theorem load_instances_two_siblings (files : String → Option (List (List Int)))
    (data_path : String) (names : List String) (load : String → Instance)
    (h : ∀ nm ∈ names, load_instance files data_path nm = .ok (load nm)) :
    load_instances_list files data_path names = .ok (names.bind fun nm =>
      [(nm ++ "_0", { load nm with k := ceil_div (load nm).n 5 }),
       (nm ++ "_1", { load nm with k := ceil_div (load nm).n 2 })]) ∧
    (∀ nm,
      ({ load nm with k := ceil_div (load nm).n 5 }).V
          = ({ load nm with k := ceil_div (load nm).n 2 }).V ∧
      ({ load nm with k := ceil_div (load nm).n 5 }).E
          = ({ load nm with k := ceil_div (load nm).n 2 }).E ∧
      ({ load nm with k := ceil_div (load nm).n 5 }).weights
          = ({ load nm with k := ceil_div (load nm).n 2 }).weights) ∧
    (∀ (nm2 : String) (inst : Instance), load_instance files data_path nm2 = .ok inst →
       0 ≤ inst.n → (inst.V.length : Int) = inst.n + 1) := by
  refine ⟨load_instances_list_eq files data_path load names h, fun nm => ⟨rfl, rfl, rfl⟩, ?_⟩
  intro nm2 inst hload hn
  have hlen : inst.V.length = (inst.n + 1).toNat := by
    rw [(load_instance_shape files data_path nm2 inst hload).1, List.length_map,
      List.length_range]
  rw [hlen]
  omega

/-- C6 witness: loading the single base name `07` yields exactly its two
siblings. -/
theorem load_instances_two_siblings_witness :
    load_instances_list files07 "data" ["07"] = .ok (["07"].bind fun nm =>
      [(nm ++ "_0", { w_load07 nm with k := ceil_div (w_load07 nm).n 5 }),
       (nm ++ "_1", { w_load07 nm with k := ceil_div (w_load07 nm).n 2 })]) :=
  (load_instances_two_siblings files07 "data" ["07"] w_load07 (by decide)).1

/-- A loader failure at any position of the name list, after names that
load, makes `load_instances` fail with that error. -/
theorem load_instances_list_error (files : String → Option (List (List Int)))
    (data_path : String) (e : PyError) :
    ∀ (pre : List String) (nm : String) (rest : List String),
      (∀ p ∈ pre, ∃ i, load_instance files data_path p = .ok i) →
      load_instance files data_path nm = .error e →
      load_instances_list files data_path (pre ++ nm :: rest) = .error e := by
  intro pre
  induction pre with
  | nil =>
    intro nm rest _ hbad
    simp [load_instances_list, hbad]
  | cons q t ih =>
    intro nm rest hpre hbad
    obtain ⟨i, hi⟩ := hpre q (List.mem_cons_self q t)
    have hrec := ih nm rest (fun p hp => hpre p (List.mem_cons_of_mem q hp)) hbad
    simp [load_instances_list, hi, hrec]

/-- C5 (amended): a loader error for any configured instance is not caught
anywhere: it propagates out of `load_instances` and aborts the whole `run`,
so no instance at all (the remaining loadable ones included) is formulated
or solved. -/
theorem loader_error_aborts_batch (s : KMSTState)
    (files : String → Option (List (List Int))) (statusOf : String → Status)
    (pre : List String) (nm : String) (rest : List String) (e : PyError)
    (hnames : s.instance_names = pre ++ nm :: rest)
    (hpre : ∀ p ∈ pre, ∃ i, load_instance files s.data_path p = .ok i)
    (hbad : load_instance files s.data_path nm = .error e) :
    run s files statusOf = .error e ∧ ∀ r, run s files statusOf ≠ .ok r := by
  have hl : load_instances_list files s.data_path s.instance_names = .error e := by
    rw [hnames]
    exact load_instances_list_error files s.data_path e pre nm rest hpre hbad
  have hload : load_instances s files = .error e := by
    simp [load_instances, hl]
  constructor
  · simp [run, hload]
  · intro r hr
    rw [show run s files statusOf = .error e by simp [run, hload]] at hr
    simp at hr

/-- C5 witness: the abort theorem on a batch whose first name loads and
whose second name is missing. -/
theorem loader_error_aborts_batch_witness :
    run cex_state2 cex_files w_status_good
      = .error (PyError.fileNotFoundError "data/g01.dat") :=
  (loader_error_aborts_batch cex_state2 cex_files w_status_good ["02"] "01" []
    (PyError.fileNotFoundError "data/g01.dat") rfl
    (by
      intro p hp
      simp only [List.mem_singleton] at hp
      subst hp
      exact ⟨inst02, by decide⟩)
    (by decide)).1

/-- C5 counterexample: with the first configured instance's data file
missing, `run` fails with the loader's error and produces no result, even
though the second instance's file is present and loads fine — the error is
not caught at the per-instance level and the batch does not proceed. -/
theorem missing_file_not_isolated :
    run cex_state cex_files (fun _ => Status.optimal)
        = .error (PyError.fileNotFoundError "data/g01.dat") ∧
    load_instance cex_files "data" "02" = .ok inst02 ∧
    ∀ r, run cex_state cex_files (fun _ => Status.optimal) ≠ .ok r := by
  refine ⟨by decide, by decide, ?_⟩
  intro r hr
  rw [show run cex_state cex_files (fun _ => Status.optimal)
      = .error (PyError.fileNotFoundError "data/g01.dat") by decide] at hr
  simp at hr

end KMST
